import Mathlib

/-!
Verification of the OptiSigns Flexi-Screen shipment dashboard.

The development shallowly embeds the two JavaScript source files
(`src/js/dashboard.js` and the unnamed sibling variant `src/unnamed/part_000`)
in Lean:

* the temporal bucket classifier `processAndGroupShipments`, which assigns
  each shipment record to one of nine date-relative buckets;
* the overflow animator `startHorizontalScrolling` in its two variants
  (continuous seamless loop, and single-shot scroll-and-hold);
* the top-level loader `loadAndDisplayData` with its error handling;
* the slide rotator described by the design document (its code is not part
  of the two sources, so it is modelled from the spec).

JavaScript machine details are made explicit: local dates are a calendar-day
index plus a time-of-day offset in milliseconds, `Date#setHours(0,0,0,0)`
zeroes the offset, `Math.ceil` of a millisecond quotient is an exact ceiling
division on integers, string truthiness is "present and non-empty", and an
unparseable date string (an Invalid Date whose `NaN` arithmetic fails every
comparison) is an explicit parse failure.  Pixel measurements and durations
are rationals.
-/

namespace OptiSigns

/-! ## Dates and records -/

/-- Milliseconds in one day, the constant `1000 * 60 * 60 * 24` of the source. -/
def msPerDay : Int := 1000 * 60 * 60 * 24

/-- Ceiling division on integers, mirroring `Math.ceil(a / b)` for `b > 0`. -/
def ceilDivInt (a b : Int) : Int := -(Int.fdiv (-a) b)

/-- A local wall-clock instant: a calendar-day index plus the time of day in
milliseconds.  `day` counts local calendar days from an arbitrary epoch. -/
structure LocalDate where
  day : Int
  msOfDay : Int
deriving Repr, DecidableEq

/-- Model of `date.setHours(0, 0, 0, 0)`: normalize to local midnight by
discarding the time-of-day component. -/
def setMidnight (d : LocalDate) : LocalDate := { d with msOfDay := 0 }

/-- Millisecond timestamp of a local instant (the value a JS `Date` coerces
to in arithmetic). -/
def toMs (d : LocalDate) : Int := d.day * msPerDay + d.msOfDay

/-- A shipment record as consumed by the dashboard.  Absent JSON fields are
`none`; a present field holds its string, which may be empty. -/
structure Shipment where
  customer : Option String := none
  reference : Option String := none
  arrival : Option String := none
  departure : Option String := none
  type : Option String := none
deriving Repr, DecidableEq

/-- JavaScript truthiness of an optional string field: `undefined` and the
empty string are falsy, every other string is truthy. -/
def truthyStr : Option String → Bool
  | none => false
  | some s => !s.isEmpty

/-- The JS expression `shipment.arrival || shipment.departure`: the arrival
field when truthy, otherwise the departure field as-is. -/
def effectiveDateStr (s : Shipment) : Option String :=
  if truthyStr s.arrival then s.arrival else s.departure

/-! ## Bucket classifier (`processAndGroupShipments`) -/

/-- The `if`/`else if` classification chain of the source, on an integer
`diffDays`.  The final `none` mirrors the absence of a catch-all branch
(reachable in JS only for `NaN`, which the embedding rules out upstream by
treating an Invalid Date as a parse failure). -/
def ordinalOf (diffDays : Int) : Option Nat :=
  if diffDays < 0 then some 0
  else if diffDays = 0 then some 1
  else if 1 ≤ diffDays ∧ diffDays ≤ 6 then some (diffDays + 1).toNat
  else if 7 ≤ diffDays then some 8
  else none

/-- Normalize both instants to local midnight, subtract their timestamps and
apply `Math.ceil(diffTime / msPerDay)`, exactly as in the source. -/
def diffDaysFrom (today d : LocalDate) : Int :=
  ceilDivInt (toMs (setMidnight d) - toMs (setMidnight today)) msPerDay

/-- Bucket ordinal of one record, following the per-record body of
`processAndGroupShipments`: read the effective date string, skip a falsy one,
parse it (`none` models an Invalid Date), normalize and classify.  The body
neither raises nor logs anything: a skipped record simply produces no
ordinal. -/
def shipmentOrdinal (parse : String → Option LocalDate) (today : LocalDate)
    (s : Shipment) : Option Nat :=
  match effectiveDateStr s with
  | none => none
  | some dateStr =>
    if dateStr.isEmpty then none
    else
      match parse dateStr with
      | none => none
      | some d => ordinalOf (diffDaysFrom today d)

/-- A record has a usable effective date when the arrival-else-departure
string is present, non-empty and parses as a calendar date. -/
def hasUsableDate (parse : String → Option LocalDate) (s : Shipment) : Bool :=
  match effectiveDateStr s with
  | none => false
  | some str => !str.isEmpty && (parse str).isSome

/-- The nine initially empty buckets. -/
def emptyGroups : List (List Shipment) := List.replicate 9 []

/-- Model of `groups[i].shipments.push(shipment)` guarded by the
classification chain: append the record at the end of bucket `i` when it was
classified, leave every bucket untouched when it was not. -/
def pushShipment (groups : List (List Shipment)) (o : Option Nat)
    (s : Shipment) : List (List Shipment) :=
  match o with
  | none => groups
  | some i => groups.set i (groups.getD i [] ++ [s])

/-- The classifier `processAndGroupShipments`: normalize the reference
instant once, then fold the per-record classification over the input in
order.  Buckets are modelled by their member lists; the title strings carry
no classification content and are not modelled. -/
def processAndGroupShipments (parse : String → Option LocalDate)
    (now : LocalDate) (allShipments : List Shipment) : List (List Shipment) :=
  let today := setMidnight now
  allShipments.foldl
    (fun groups s => pushShipment groups (shipmentOrdinal parse today s) s)
    emptyGroups

/-! ## Overflow animator (`startHorizontalScrolling`, both variants) -/

/-- CSS timing function of an animation. -/
inductive TimingFun
  | linear
  | ease
deriving Repr, DecidableEq

/-- CSS animation direction.  The source never sets `alternate`, so a loop
always plays forward. -/
inductive AnimDirection
  | normal
  | alternate
deriving Repr, DecidableEq

/-- CSS animation iteration count: loop forever or play a single time. -/
inductive AnimIteration
  | loopForever
  | once
deriving Repr, DecidableEq

/-- An applied CSS animation, as set by
`container.style.animation = "horizontal-scroll DURs linear infinite"`.
The direction field is the CSS default `normal` because the shorthand names
no direction. -/
structure AnimationSpec where
  keyframesName : String
  durationSec : ℚ
  timing : TimingFun
  direction : AnimDirection
  iteration : AnimIteration
deriving Repr, DecidableEq

/-- Name of the injected keyframes rule. -/
def horizontalScrollName : String := "horizontal-scroll"

/-- Class added by the single-shot variant. -/
def scrollingContentClass : String := "scrolling-content"

/-- A rendered marquee region: the widths (px) of its items in order, its
visible viewport width (`clientWidth`), and the presentation parameters the
animator may set.  `scrollWidthVar` is the `--scroll-width` CSS custom
property. -/
structure Region where
  items : List ℚ
  viewportExtent : ℚ
  scrollWidthVar : Option ℚ := none
  animation : Option AnimationSpec := none
  animationDurationSec : Option ℚ := none
  cssClasses : List String := []
deriving Repr, DecidableEq

/-- Content extent (`scrollWidth`) of a region: total width of its items. -/
def contentExtent (r : Region) : ℚ := r.items.sum

/-- Scroll rate of the continuous loop, the constant `50` px/s of
`src/js/dashboard.js`. -/
def scrollRate : ℚ := 50

/-- Model of the clone loop `originalItems.forEach(... appendChild(clone))`:
every original item is appended once, in order, after the last item. -/
def duplicated (r : Region) : Region := { r with items := r.items ++ r.items }

/-- The `scrollDistance = -container.scrollWidth / 2` of the loop variant,
measured on the already-duplicated content. -/
def loopScrollDistance (r : Region) : ℚ := -(contentExtent (duplicated r)) / 2

/-- The `duration = Math.abs(scrollDistance) / scrollRate` of the loop
variant. -/
def loopDuration (r : Region) : ℚ := |loopScrollDistance r| / scrollRate

/-- The continuous-loop animator of `src/js/dashboard.js`: when the content
overflows the viewport, append a clone of every original item after the last,
set the `--scroll-width` property to `scrollDistance`, and apply a linear,
infinite, forward `horizontal-scroll` animation.  A non-overflowing region is
left untouched. -/
def startHorizontalScrolling (r : Region) : Region :=
  if contentExtent r > r.viewportExtent then
    { duplicated r with
      scrollWidthVar := some (loopScrollDistance r),
      animation := some
        { keyframesName := horizontalScrollName
          durationSec := loopDuration r
          timing := TimingFun.linear
          direction := AnimDirection.normal
          iteration := AnimIteration.loopForever } }
  else r

/-- Seconds of animation per hidden pixel in the single-shot variant, the
constant `0.05` of `src/unnamed/part_000`. -/
def onceSecPerPx : ℚ := 5 / 100

/-- Minimum watch time (seconds) of the single-shot variant, the `15` in
`Math.max(15, duration)`. -/
def minWatchTimeSec : ℚ := 15

/-- The `scrollDistance = -(scrollWidth - clientWidth)` of the single-shot
variant. -/
def onceScrollDistance (r : Region) : ℚ := -(contentExtent r - r.viewportExtent)

/-- The `duration = Math.abs(scrollDistance) * 0.05` of the single-shot
variant, before the minimum is applied. -/
def onceDuration (r : Region) : ℚ := |onceScrollDistance r| * onceSecPerPx

/-- The single-shot animator of `src/unnamed/part_000`: when the content
overflows, set the scroll distance without any duplication, set
`animationDuration` to `Math.max(15, duration)` seconds, and add the
`scrolling-content` class.  A non-overflowing region is left untouched. -/
def startHorizontalScrollingOnce (r : Region) : Region :=
  if contentExtent r > r.viewportExtent then
    { r with
      scrollWidthVar := some (onceScrollDistance r),
      animationDurationSec := some (max minWatchTimeSec (onceDuration r)),
      cssClasses := r.cssClasses ++ [scrollingContentClass] }
  else r

/-- Modelled from the spec: the stylesheet defining the `scrolling-content`
class is not part of the two source files, so its playback behavior is taken
from the design document, which says this variant scrolls "once to its end
and hold (not loop)". -/
def scrollingContentPlayback : AnimIteration := AnimIteration.once

/-! ## Top-level loader (`loadAndDisplayData`) -/

/-- Outcome of the `fetch` of the shipment document, after flattening the
per-day mapping: a success carries the flat record list; `httpError` models a
non-ok response (the thrown `HTTP error! Status:` case); `transportFailure`
models a rejected fetch. -/
inductive FetchOutcome
  | ok (shipments : List Shipment)
  | httpError (status : Nat)
  | transportFailure
deriving Repr, DecidableEq

/-- What the loader leaves inside the render target. -/
inductive RenderedContent
  | shipmentTable (groups : List (List Shipment))
  | errorNotice
deriving Repr, DecidableEq

/-- Observable outcome of one run of `loadAndDisplayData`: how many
diagnostics were written with `console.error`, what the render target now
shows (`none` when it was left untouched), and how many fetches were
issued. -/
structure LoadOutcome where
  errorsLogged : Nat
  containerContent : Option RenderedContent
  fetchAttempts : Nat
deriving Repr, DecidableEq

/-- The top-level loader of `src/js/dashboard.js`: abort with a logged error
and no fetch when the `slider-container` element is missing; otherwise fetch
once and either build the table from the classified groups or — on a non-ok
response or transport failure, both thrown into the single top-level
`catch` — log one diagnostic and replace the render target's content with
the inline error notice. -/
def loadAndDisplayData (parse : String → Option LocalDate) (now : LocalDate)
    (containerExists : Bool) (fetched : FetchOutcome) : LoadOutcome :=
  if !containerExists then
    { errorsLogged := 1, containerContent := none, fetchAttempts := 0 }
  else
    match fetched with
    | FetchOutcome.ok shipments =>
      { errorsLogged := 0
        containerContent := some
          (RenderedContent.shipmentTable
            (processAndGroupShipments parse now shipments))
        fetchAttempts := 1 }
    | FetchOutcome.httpError _ =>
      { errorsLogged := 1
        containerContent := some RenderedContent.errorNotice
        fetchAttempts := 1 }
    | FetchOutcome.transportFailure =>
      { errorsLogged := 1
        containerContent := some RenderedContent.errorNotice
        fetchAttempts := 1 }

/-! ## Slide rotator (modelled from the spec) -/

/-- Modelled from the spec: number of pages `k = ceil(totalRows /
rowsPerPage)` of the slide rotator, whose code is not among the two source
files. -/
def numPages (totalRows rowsPerPage : Nat) : Nat :=
  (totalRows + rowsPerPage - 1) / rowsPerPage

/-- Modelled from the spec: chunking worker with structural fuel (the fuel is
instantiated with the row count, which suffices for a positive page size and
keeps the definition kernel-reducible). -/
def chunkRowsAux {α : Type} (fuel rowsPerPage : Nat) (rows : List α) :
    List (List α) :=
  match fuel with
  | 0 => []
  | fuel + 1 =>
    match rows with
    | [] => []
    | _ :: _ =>
      if rowsPerPage = 0 then []
      else
        rows.take rowsPerPage
          :: chunkRowsAux fuel rowsPerPage (rows.drop rowsPerPage)

/-- Modelled from the spec: the pages of the slide rotator, each a contiguous
fixed-size chunk of the full ordered grid-row sequence, the last chunk
possibly short. -/
def chunkRows {α : Type} (rowsPerPage : Nat) (rows : List α) : List (List α) :=
  chunkRowsAux rows.length rowsPerPage rows

/-- Modelled from the spec: rotator state, the shared `currentIndex` plus
whether the recurring timer was installed. -/
structure RotatorState where
  currentIndex : Nat
  timerStarted : Bool
deriving Repr, DecidableEq

/-- Modelled from the spec: initial rotator state — page 0 visible, and the
fixed-period timer installed only when there is more than one page. -/
def initRotator (k : Nat) : RotatorState :=
  { currentIndex := 0, timerStarted := decide (1 < k) }

/-- Modelled from the spec: one tick of the rotation timer,
`currentIndex ← (currentIndex + 1) mod k`; with no timer installed nothing
ever fires, so the state is unchanged. -/
def tickRotator (k : Nat) (st : RotatorState) : RotatorState :=
  if st.timerStarted then { st with currentIndex := (st.currentIndex + 1) % k }
  else st

/-- Modelled from the spec: the pages marked visible after a transition —
exactly the pages whose index equals `currentIndex`. -/
def visiblePages (k : Nat) (st : RotatorState) : List Nat :=
  (List.range k).filter (fun j => j == st.currentIndex)

/-! ## Concrete demonstration data (for witnesses) -/

/-- The empty string, the falsy field value of the truthiness claims. -/
def emptyString : String := ""

/-- Date string one day before the demonstration reference date. -/
def strYesterday : String := "2024-06-09"

/-- Date string of the demonstration reference date itself (midnight). -/
def strToday : String := "2024-06-10"

/-- Date string of the reference date with an afternoon time-of-day. -/
def strTodayLater : String := "2024-06-10 14:00"

/-- Date string six days after the demonstration reference date. -/
def strD6 : String := "2024-06-16"

/-- Date string ten days after the demonstration reference date. -/
def strFuture : String := "2024-06-20"

/-- Demonstration reference instant: calendar day 100, 10:00 local time. -/
def refNow : LocalDate := { day := 100, msOfDay := 36000000 }

/-- Demonstration date parser, mapping the fixed date strings above to local
instants; every other string is an Invalid Date. -/
def demoParse (str : String) : Option LocalDate :=
  if str = strYesterday then some { day := 99, msOfDay := 0 }
  else if str = strToday then some { day := 100, msOfDay := 0 }
  else if str = strTodayLater then some { day := 100, msOfDay := 50400000 }
  else if str = strD6 then some { day := 106, msOfDay := 0 }
  else if str = strFuture then some { day := 110, msOfDay := 0 }
  else none

/-- Record arriving one day before the reference date. -/
def shipYesterday : Shipment := { arrival := some strYesterday }

/-- Record arriving on the reference date at midnight. -/
def shipToday : Shipment := { arrival := some strToday }

/-- Record departing on the reference date in the afternoon (no arrival). -/
def shipTodayLater : Shipment := { departure := some strTodayLater }

/-- Record departing six days ahead. -/
def shipD6 : Shipment := { departure := some strD6 }

/-- Record arriving ten days ahead. -/
def shipFuture : Shipment := { arrival := some strFuture }

/-- Record whose arrival and departure are both the empty string. -/
def shipUnscheduled : Shipment :=
  { arrival := some emptyString, departure := some emptyString }

/-- Demonstration input list. -/
def demoShipments : List Shipment :=
  [shipYesterday, shipToday, shipTodayLater, shipD6, shipFuture,
   shipUnscheduled]

/-- An overflowing demonstration region: one 10 px item, 4 px viewport. -/
def demoRegion : Region := { items := [10], viewportExtent := 4 }

/-- A non-overflowing demonstration region: one 3 px item, 4 px viewport. -/
def demoStaticRegion : Region := { items := [3], viewportExtent := 4 }

/-! ## Basic classifier lemmas -/

theorem msPerDay_pos : (0 : Int) < msPerDay := by decide

theorem ceilDivInt_mul_cancel (k : Int) :
    ceilDivInt (k * msPerDay) msPerDay = k := by
  have h : msPerDay ≠ 0 := by decide
  rw [ceilDivInt, ← neg_mul, Int.mul_fdiv_cancel _ h, neg_neg]

/-- The ceiling-division day difference collapses to the difference of the
calendar-day indices, because both instants sit at local midnight. -/
theorem diffDaysFrom_eq (today d : LocalDate) :
    diffDaysFrom today d = d.day - today.day := by
  have : toMs (setMidnight d) - toMs (setMidnight today)
      = (d.day - today.day) * msPerDay := by
    simp [toMs, setMidnight]
    ring
  rw [diffDaysFrom, this, ceilDivInt_mul_cancel]

theorem ordinalOf_isSome (d : Int) : (ordinalOf d).isSome := by
  unfold ordinalOf
  split_ifs with h1 h2 h3 h4
  · rfl
  · rfl
  · rfl
  · rfl
  · exfalso
    rcases not_and_or.mp h3 with h5 | h5 <;> omega

theorem ordinalOf_lt_nine {d : Int} {i : Nat} (h : ordinalOf d = some i) :
    i < 9 := by
  unfold ordinalOf at h
  split_ifs at h with h1 h2 h3 h4
  · simp at h; omega
  · simp at h; omega
  · simp at h
    obtain ⟨h5, h6⟩ := h3
    omega
  · simp at h; omega

/-- The per-record ordinal under the parseability hypotheses. -/
theorem shipmentOrdinal_eq_of_parse {parse : String → Option LocalDate}
    {today : LocalDate} {s : Shipment} {str : String} {d : LocalDate}
    (hstr : effectiveDateStr s = some str) (hne : str.isEmpty = false)
    (hp : parse str = some d) :
    shipmentOrdinal parse today s = ordinalOf (diffDaysFrom today d) := by
  simp [shipmentOrdinal, hstr, hne, hp]

/-- The per-record ordinal depends only on the calendar days of the record's
parsed date and of the reference instant. -/
theorem shipmentOrdinal_day {parse : String → Option LocalDate}
    {now : LocalDate} {s : Shipment} {str : String} {d : LocalDate}
    (hstr : effectiveDateStr s = some str) (hne : str.isEmpty = false)
    (hp : parse str = some d) :
    shipmentOrdinal parse (setMidnight now) s = ordinalOf (d.day - now.day) := by
  rw [shipmentOrdinal_eq_of_parse hstr hne hp, diffDaysFrom_eq]
  rfl

/-- The classifier yields an ordinal exactly for records with a usable
effective date. -/
theorem shipmentOrdinal_isSome_eq (parse : String → Option LocalDate)
    (today : LocalDate) (s : Shipment) :
    (shipmentOrdinal parse today s).isSome = hasUsableDate parse s := by
  unfold shipmentOrdinal hasUsableDate
  cases hds : effectiveDateStr s with
  | none => rfl
  | some str =>
    by_cases he : str.isEmpty
    · simp [he]
    · cases hp : parse str with
      | none => simp [he, hp]
      | some d => simp [he, hp, ordinalOf_isSome]

/-! ## List helper lemmas for the grouping fold -/

theorem getD_set_self {α : Type} (l : List α) (i : Nat) (hi : i < l.length)
    (a d : α) : (l.set i a).getD i d = a := by
  rw [List.getD_eq_getElem?_getD]
  simp [List.getElem?_set, hi]

theorem getD_set_ne {α : Type} (l : List α) (i j : Nat) (h : i ≠ j)
    (a d : α) : (l.set i a).getD j d = l.getD j d := by
  rw [List.getD_eq_getElem?_getD, List.getD_eq_getElem?_getD]
  simp [List.getElem?_set, h]

theorem getD_of_length_le {α : Type} (l : List α) (i : Nat)
    (h : l.length ≤ i) (d : α) : l.getD i d = d := by
  rw [List.getD_eq_getElem?_getD, List.getElem?_eq_none h]
  rfl

theorem pushShipment_length (groups : List (List Shipment)) (o : Option Nat)
    (s : Shipment) : (pushShipment groups o s).length = groups.length := by
  cases o <;> simp [pushShipment]

/-- A classified ordinal is always one of the nine bucket indices. -/
theorem shipmentOrdinal_lt_nine {parse : String → Option LocalDate}
    {today : LocalDate} {s : Shipment} {i : Nat}
    (h : shipmentOrdinal parse today s = some i) : i < 9 := by
  unfold shipmentOrdinal at h
  split at h
  · simp at h
  · split_ifs at h with he
    · split at h
      · simp at h
      · exact ordinalOf_lt_nine h

/-- Length of the buckets after folding the per-record step over any list. -/
theorem foldl_push_length (parse : String → Option LocalDate)
    (today : LocalDate) (l : List Shipment) (g : List (List Shipment)) :
    (l.foldl
      (fun groups s => pushShipment groups (shipmentOrdinal parse today s) s)
      g).length = g.length := by
  induction l generalizing g with
  | nil => rfl
  | cons s t ih =>
    rw [List.foldl_cons, ih, pushShipment_length]

/-- Core invariant of the grouping fold: bucket `i` of the fold result is
bucket `i` of the accumulator followed by the records of the remaining input
classified to `i`, in input order. -/
theorem foldl_push_getD (parse : String → Option LocalDate)
    (today : LocalDate) (l : List Shipment) (g : List (List Shipment))
    (hg : g.length = 9) (i : Nat) (hi : i < 9) :
    (l.foldl
      (fun groups s => pushShipment groups (shipmentOrdinal parse today s) s)
      g).getD i []
    = g.getD i []
      ++ l.filter (fun s => shipmentOrdinal parse today s == some i) := by
  induction l generalizing g with
  | nil => simp
  | cons s t ih =>
    rw [List.foldl_cons, List.filter_cons]
    cases ho : shipmentOrdinal parse today s with
    | none =>
      have hstep : pushShipment g none s = g := rfl
      rw [hstep, ih g hg]
      simp [ho]
    | some j =>
      have hj : j < 9 := shipmentOrdinal_lt_nine ho
      have hstep : pushShipment g (some j) s
          = g.set j (g.getD j [] ++ [s]) := rfl
      have hlen : (g.set j (g.getD j [] ++ [s])).length = 9 := by
        simp [hg]
      rw [hstep, ih _ hlen]
      by_cases hij : i = j
      · subst hij
        rw [getD_set_self g i (by omega) _ []]
        simp [ho, List.append_assoc]
      · rw [getD_set_ne g j i (fun h => hij h.symm) _ []]
        have hne : j ≠ i := fun h => hij h.symm
        simp [ho, hne]

/-- Bucket `i` of the classifier output is exactly the input restricted to
the records classified to ordinal `i`, in input order. -/
theorem bucket_eq_filter (parse : String → Option LocalDate)
    (now : LocalDate) (l : List Shipment) (i : Nat) (hi : i < 9) :
    (processAndGroupShipments parse now l).getD i []
    = l.filter
        (fun s => shipmentOrdinal parse (setMidnight now) s == some i) := by
  unfold processAndGroupShipments
  rw [foldl_push_getD parse (setMidnight now) l emptyGroups (by rfl) i hi]
  have : emptyGroups.getD i [] = [] := by
    rw [List.getD_eq_getElem?_getD]
    rcases h : emptyGroups[i]? with _ | x
    · rfl
    · have hx := List.eq_of_mem_replicate (List.getElem?_mem h)
      rw [hx]; rfl
  rw [this, List.nil_append]

/-- The classifier always returns exactly nine buckets. -/
theorem processAndGroupShipments_length (parse : String → Option LocalDate)
    (now : LocalDate) (l : List Shipment) :
    (processAndGroupShipments parse now l).length = 9 := by
  unfold processAndGroupShipments
  rw [foldl_push_length]
  rfl

/-- Membership characterization: a record sits in bucket `i` exactly when it
occurs in the input and is classified to ordinal `i`. -/
theorem mem_bucket_iff (parse : String → Option LocalDate)
    (now : LocalDate) (l : List Shipment) (s : Shipment) (i : Nat) :
    s ∈ (processAndGroupShipments parse now l).getD i []
    ↔ s ∈ l ∧ shipmentOrdinal parse (setMidnight now) s = some i := by
  by_cases hi : i < 9
  · rw [bucket_eq_filter parse now l i hi, List.mem_filter]
    simp
  · rw [getD_of_length_le _ i
      (by rw [processAndGroupShipments_length]; omega) []]
    constructor
    · intro h; exact absurd h (List.not_mem_nil s)
    · rintro ⟨-, ho⟩
      exact absurd (shipmentOrdinal_lt_nine ho) hi

/-! ## Animator lemmas -/

/-- Duplicating the items exactly doubles the content extent. -/
theorem contentExtent_duplicated (r : Region) :
    contentExtent (duplicated r) = 2 * contentExtent r := by
  simp [contentExtent, duplicated, List.sum_append]
  ring

/-- The stored loop scroll distance is the negated pre-duplication extent. -/
theorem loopScrollDistance_eq (r : Region) :
    loopScrollDistance r = -(contentExtent r) := by
  rw [loopScrollDistance, contentExtent_duplicated]
  ring

/-! ## Rotator and chunking lemmas -/

theorem tickRotator_of_not_started (k : Nat) (st : RotatorState)
    (h : st.timerStarted = false) : tickRotator k st = st := by
  simp [tickRotator, h]

theorem rotator_iterate (k : Nat) (hk : 1 < k) (n : Nat) :
    (tickRotator k)^[n] (initRotator k)
    = { currentIndex := n % k, timerStarted := true } := by
  induction n with
  | zero =>
    simp [initRotator, hk]
  | succ n ih =>
    rw [Function.iterate_succ_apply', ih]
    have h1 : (1 : Nat) % k = 1 := Nat.mod_eq_of_lt hk
    have h2 : (n % k + 1) % k = (n + 1) % k := by
      conv_rhs => rw [Nat.add_mod]
      rw [h1]
    simp [tickRotator, h2]

theorem rotator_static (k : Nat) (hk : k ≤ 1) (n : Nat) :
    (tickRotator k)^[n] (initRotator k) = initRotator k := by
  have htimer : (initRotator k).timerStarted = false := by
    simp [initRotator]
    omega
  induction n with
  | zero => rfl
  | succ n ih =>
    rw [Function.iterate_succ_apply', ih,
      tickRotator_of_not_started k _ htimer]

/-- With the current index in range, exactly one page is visible. -/
theorem visiblePages_length (k : Nat) (st : RotatorState)
    (h : st.currentIndex < k) : (visiblePages k st).length = 1 := by
  have h1 : (List.range k).count st.currentIndex = 1 :=
    List.count_eq_one_of_mem (List.nodup_range k) (List.mem_range.2 h)
  simpa [visiblePages, List.count, List.countP_eq_length_filter] using h1

theorem chunkRowsAux_flatten {α : Type} (n : Nat) (hn : 0 < n) :
    ∀ (fuel : Nat) (l : List α), l.length ≤ fuel →
      (chunkRowsAux fuel n l).flatten = l := by
  intro fuel
  induction fuel with
  | zero =>
    intro l hl
    have h0 : l = [] := List.eq_nil_of_length_eq_zero (by omega)
    subst h0
    rfl
  | succ fuel ih =>
    intro l hl
    cases l with
    | nil => rfl
    | cons a t =>
      have hred : chunkRowsAux (fuel + 1) n (a :: t)
          = if n = 0 then []
            else (a :: t).take n :: chunkRowsAux fuel n ((a :: t).drop n) := rfl
      rw [hred, if_neg (Nat.pos_iff_ne_zero.mp hn), List.flatten_cons,
        ih ((a :: t).drop n)
          (by rw [List.length_drop]; simp only [List.length_cons] at hl ⊢; omega)]
      exact List.take_append_drop n (a :: t)

theorem chunkRowsAux_length {α : Type} (n : Nat) (hn : 0 < n) :
    ∀ (fuel : Nat) (l : List α), l.length ≤ fuel →
      (chunkRowsAux fuel n l).length = (l.length + n - 1) / n := by
  intro fuel
  induction fuel with
  | zero =>
    intro l hl
    have h0 : l = [] := List.eq_nil_of_length_eq_zero (by omega)
    subst h0
    simp [chunkRowsAux]
    exact (Nat.div_eq_of_lt (by omega)).symm
  | succ fuel ih =>
    intro l hl
    cases l with
    | nil =>
      simp [chunkRowsAux]
      exact (Nat.div_eq_of_lt (by omega)).symm
    | cons a t =>
      have hred : chunkRowsAux (fuel + 1) n (a :: t)
          = if n = 0 then []
            else (a :: t).take n :: chunkRowsAux fuel n ((a :: t).drop n) := rfl
      rw [hred, if_neg (Nat.pos_iff_ne_zero.mp hn), List.length_cons,
        ih ((a :: t).drop n)
          (by rw [List.length_drop]; simp only [List.length_cons] at hl ⊢; omega),
        List.length_drop]
      simp only [List.length_cons]
      rcases Nat.lt_or_ge (t.length + 1) n with hc | hc
      · have e1 : t.length + 1 - n = 0 := by omega
        rw [e1, Nat.div_eq_of_lt (by omega)]
        rw [Nat.div_eq_of_lt_le] <;> omega
      · have e1 : t.length + 1 + n - 1 = (t.length + 1 - n + n - 1) + n := by
          omega
        rw [e1, Nat.add_div_right _ hn]

theorem chunkRowsAux_mem {α : Type} (n : Nat) (hn : 0 < n) :
    ∀ (fuel : Nat) (l : List α) (c : List α), l.length ≤ fuel →
      c ∈ chunkRowsAux fuel n l → c ≠ [] ∧ c.length ≤ n := by
  intro fuel
  induction fuel with
  | zero =>
    intro l c hl hc
    exact absurd hc (List.not_mem_nil c)
  | succ fuel ih =>
    intro l c hl hc
    cases l with
    | nil => exact absurd hc (List.not_mem_nil c)
    | cons a t =>
      have hred : chunkRowsAux (fuel + 1) n (a :: t)
          = if n = 0 then []
            else (a :: t).take n :: chunkRowsAux fuel n ((a :: t).drop n) := rfl
      rw [hred, if_neg (Nat.pos_iff_ne_zero.mp hn)] at hc
      rcases List.mem_cons.mp hc with h | h
      · subst h
        constructor
        · intro hnil
          rw [List.take_eq_nil_iff] at hnil
          rcases hnil with h0 | h0
          · omega
          · exact absurd h0 (List.cons_ne_nil a t)
        · rw [List.length_take]
          omega
      · exact ih ((a :: t).drop n) c
          (by rw [List.length_drop]; simp only [List.length_cons] at hl ⊢; omega) h

theorem chunkRows_flatten {α : Type} (n : Nat) (hn : 0 < n) (l : List α) :
    (chunkRows n l).flatten = l :=
  chunkRowsAux_flatten n hn l.length l le_rfl

theorem chunkRows_length {α : Type} (n : Nat) (hn : 0 < n) (l : List α) :
    (chunkRows n l).length = numPages l.length n :=
  chunkRowsAux_length n hn l.length l le_rfl

theorem chunkRows_mem {α : Type} (n : Nat) (hn : 0 < n) (l : List α)
    (c : List α) (hc : c ∈ chunkRows n l) : c ≠ [] ∧ c.length ≤ n :=
  chunkRowsAux_mem n hn l.length l c le_rfl hc

/-! ## Claim theorems -/

/-- C1: for every shipment record with a parseable effective date (arrival if
present, else departure), the classifier computes `diffDays` as the ceiling
of the difference of the record's and the reference instant's local midnights
over one day, and places the record in ordinal 0 when `diffDays < 0`,
ordinal 1 when `diffDays = 0`, ordinal `diffDays + 1` when
`1 ≤ diffDays ≤ 6`, and ordinal 8 when `diffDays ≥ 7`. -/
theorem c1_diffDays_classification (parse : String → Option LocalDate)
    (now : LocalDate) (l : List Shipment) (s : Shipment) (hs : s ∈ l)
    (str : String) (d : LocalDate)
    (hstr : effectiveDateStr s = some str) (hne : str.isEmpty = false)
    (hp : parse str = some d) (diffDays : Int)
    (hdd : diffDays
      = ceilDivInt (toMs (setMidnight d) - toMs (setMidnight now)) msPerDay) :
    (diffDays < 0 → s ∈ (processAndGroupShipments parse now l).getD 0 [])
    ∧ (diffDays = 0 → s ∈ (processAndGroupShipments parse now l).getD 1 [])
    ∧ (1 ≤ diffDays → diffDays ≤ 6 →
        s ∈ (processAndGroupShipments parse now l).getD (diffDays + 1).toNat [])
    ∧ (7 ≤ diffDays →
        s ∈ (processAndGroupShipments parse now l).getD 8 []) := by
  have hdf : diffDaysFrom (setMidnight now) d
      = ceilDivInt (toMs (setMidnight d) - toMs (setMidnight now)) msPerDay := rfl
  have ho : shipmentOrdinal parse (setMidnight now) s = ordinalOf diffDays := by
    rw [shipmentOrdinal_eq_of_parse hstr hne hp, hdf, ← hdd]
  have key : ∀ i : Nat, ordinalOf diffDays = some i
      → s ∈ (processAndGroupShipments parse now l).getD i [] := by
    intro i hoi
    exact (mem_bucket_iff parse now l s i).2 ⟨hs, by rw [ho]; exact hoi⟩
  refine ⟨fun h => key 0 ?_, fun h => key 1 ?_, fun h1 h2 => key _ ?_,
    fun h => key 8 ?_⟩
  · unfold ordinalOf
    rw [if_pos h]
  · unfold ordinalOf
    rw [if_neg (by omega), if_pos h]
  · unfold ordinalOf
    rw [if_neg (by omega), if_neg (by omega), if_pos ⟨h1, h2⟩]
  · unfold ordinalOf
    rw [if_neg (by omega), if_neg (by omega),
      if_neg (by rintro ⟨hc1, hc2⟩; omega), if_pos h]

/-- Witness for C1: the record dated one day before the demonstration
reference date lands in the Overdue bucket (ordinal 0). -/
theorem c1_witness :
    shipYesterday
      ∈ (processAndGroupShipments demoParse refNow demoShipments).getD 0 [] :=
  (c1_diffDays_classification demoParse refNow demoShipments shipYesterday
    (by decide) strYesterday { day := 99, msOfDay := 0 } (by decide)
    (by decide) (by decide) (-1) (by decide)).1 (by decide)

/-- C2: the classifier returns exactly nine buckets; every input record with
a present, non-empty, parseable effective date is a member of exactly one
bucket, and every other record is a member of no bucket — it is silently
excluded, the classifier being total with no error or diagnostic channel. -/
theorem c2_nine_buckets_partition (parse : String → Option LocalDate)
    (now : LocalDate) (l : List Shipment) :
    (processAndGroupShipments parse now l).length = 9
    ∧ (∀ s ∈ l, hasUsableDate parse s = true →
        ∃! i : Nat, s ∈ (processAndGroupShipments parse now l).getD i [])
    ∧ (∀ s ∈ l, hasUsableDate parse s = false →
        ∀ i : Nat, s ∉ (processAndGroupShipments parse now l).getD i []) := by
  refine ⟨processAndGroupShipments_length parse now l, ?_, ?_⟩
  · intro s hs husable
    have hsome : (shipmentOrdinal parse (setMidnight now) s).isSome = true := by
      rw [shipmentOrdinal_isSome_eq, husable]
    obtain ⟨i, hoi⟩ := Option.isSome_iff_exists.mp hsome
    refine ⟨i, (mem_bucket_iff parse now l s i).2 ⟨hs, hoi⟩, ?_⟩
    intro j hj
    have h2 := ((mem_bucket_iff parse now l s j).1 hj).2
    rw [hoi] at h2
    exact (Option.some.inj h2).symm
  · intro s hs husable i hmem
    have h2 := ((mem_bucket_iff parse now l s i).1 hmem).2
    have h3 : (shipmentOrdinal parse (setMidnight now) s).isSome = true := by
      rw [h2]; rfl
    rw [shipmentOrdinal_isSome_eq, husable] at h3
    simp at h3

/-- Witness for C2: on the demonstration data there are nine buckets, the
today-dated record sits in exactly one of them, and the record with empty
date strings sits in none (checked here for bucket 3). -/
theorem c2_witness :
    (processAndGroupShipments demoParse refNow demoShipments).length = 9
    ∧ (∃! i : Nat, shipToday
        ∈ (processAndGroupShipments demoParse refNow demoShipments).getD i [])
    ∧ shipUnscheduled
        ∉ (processAndGroupShipments demoParse refNow demoShipments).getD 3 [] := by
  obtain ⟨h1, h2, h3⟩ := c2_nine_buckets_partition demoParse refNow demoShipments
  exact ⟨h1, h2 shipToday (by decide) (by decide),
    h3 shipUnscheduled (by decide) (by decide) 3⟩

/-- C3: a record whose effective date falls on the reference instant's
calendar day lands in ordinal 1 (Today) and never in ordinal 0 or 2,
whatever the time-of-day component of the record's parsed date or of the
reference instant; and any two input records whose effective dates share a
calendar day occupy exactly the same buckets. -/
theorem c3_same_calendar_day (parse : String → Option LocalDate)
    (now : LocalDate) (l : List Shipment) :
    (∀ s ∈ l, ∀ (str : String) (d : LocalDate),
      effectiveDateStr s = some str → str.isEmpty = false →
      parse str = some d → d.day = now.day →
      s ∈ (processAndGroupShipments parse now l).getD 1 []
      ∧ s ∉ (processAndGroupShipments parse now l).getD 0 []
      ∧ s ∉ (processAndGroupShipments parse now l).getD 2 [])
    ∧ (∀ s1 ∈ l, ∀ s2 ∈ l, ∀ (str1 str2 : String) (d1 d2 : LocalDate),
      effectiveDateStr s1 = some str1 → str1.isEmpty = false →
      parse str1 = some d1 →
      effectiveDateStr s2 = some str2 → str2.isEmpty = false →
      parse str2 = some d2 → d1.day = d2.day →
      ∀ i : Nat,
        (s1 ∈ (processAndGroupShipments parse now l).getD i []
        ↔ s2 ∈ (processAndGroupShipments parse now l).getD i [])) := by
  constructor
  · intro s hs str d hstr hne hp hday
    have ho : shipmentOrdinal parse (setMidnight now) s = some 1 := by
      rw [shipmentOrdinal_day hstr hne hp, hday, sub_self]
      rfl
    refine ⟨(mem_bucket_iff parse now l s 1).2 ⟨hs, ho⟩, ?_, ?_⟩
    · intro hmem
      have h2 := ((mem_bucket_iff parse now l s 0).1 hmem).2
      rw [ho] at h2
      simp at h2
    · intro hmem
      have h2 := ((mem_bucket_iff parse now l s 2).1 hmem).2
      rw [ho] at h2
      simp at h2
  · intro s1 hs1 s2 hs2 str1 str2 d1 d2 hstr1 hne1 hp1 hstr2 hne2 hp2 hday i
    have ho1 : shipmentOrdinal parse (setMidnight now) s1
        = ordinalOf (d1.day - now.day) := shipmentOrdinal_day hstr1 hne1 hp1
    have ho2 : shipmentOrdinal parse (setMidnight now) s2
        = ordinalOf (d2.day - now.day) := shipmentOrdinal_day hstr2 hne2 hp2
    rw [mem_bucket_iff parse now l s1 i, mem_bucket_iff parse now l s2 i,
      ho1, ho2, hday]
    simp [hs1, hs2]

/-- Witness for C3: the midnight-dated and the afternoon-dated records of the
reference day — and an afternoon reference instant — land in the Today
bucket, in neither neighbor, and in the same buckets as each other. -/
theorem c3_witness :
    (shipToday
        ∈ (processAndGroupShipments demoParse refNow demoShipments).getD 1 []
      ∧ shipToday
        ∉ (processAndGroupShipments demoParse refNow demoShipments).getD 0 []
      ∧ shipToday
        ∉ (processAndGroupShipments demoParse refNow demoShipments).getD 2 [])
    ∧ (shipTodayLater
        ∈ (processAndGroupShipments demoParse refNow demoShipments).getD 1 []
      ↔ shipToday
        ∈ (processAndGroupShipments demoParse refNow demoShipments).getD 1 []) := by
  obtain ⟨h1, h2⟩ := c3_same_calendar_day demoParse refNow demoShipments
  exact ⟨h1 shipToday (by decide) strToday { day := 100, msOfDay := 0 }
      (by decide) (by decide) (by decide) (by decide),
    h2 shipTodayLater (by decide) shipToday (by decide) strTodayLater strToday
      { day := 100, msOfDay := 50400000 } { day := 100, msOfDay := 0 }
      (by decide) (by decide) (by decide) (by decide) (by decide) (by decide)
      (by decide) 1⟩

/-- C4: the classification is a stable partition — each of the nine buckets
equals the input sequence restricted to the records classified into that
bucket, preserving relative input order. -/
theorem c4_stable_partition (parse : String → Option LocalDate)
    (now : LocalDate) (l : List Shipment) (i : Nat) (hi : i < 9) :
    (processAndGroupShipments parse now l).getD i []
    = l.filter (fun s => shipmentOrdinal parse (setMidnight now) s == some i) :=
  bucket_eq_filter parse now l i hi

/-- Witness for C4: bucket 1 of the demonstration data equals the input
filtered to the records classified to ordinal 1. -/
theorem c4_witness :
    (processAndGroupShipments demoParse refNow demoShipments).getD 1 []
    = demoShipments.filter
        (fun s => shipmentOrdinal demoParse (setMidnight refNow) s == some 1) :=
  c4_stable_partition demoParse refNow demoShipments 1 (by decide)

/-- C5 counterexample: on the overflowing demonstration region the stored
scroll distance is the negation of the pre-duplication extent, not the
pre-duplication extent itself as the claim states. -/
theorem c5_counterexample :
    (startHorizontalScrolling demoRegion).scrollWidthVar
    ≠ some (contentExtent demoRegion) := by
  have h : contentExtent demoRegion > demoRegion.viewportExtent := by
    norm_num [contentExtent, demoRegion]
  unfold startHorizontalScrolling
  rw [if_pos h]
  norm_num [loopScrollDistance, duplicated, contentExtent, demoRegion]

/-- C5 (amended): for every overflowing region the loop animator appends one
clone of every item so the item sequence becomes the original followed by
itself and the content extent doubles; the stored scroll distance is the
negation of the pre-duplication extent (so its magnitude is half the new
total); and the animation lasts `|scrollDistance| / scrollRate` seconds with
the fixed rate constant, linear, infinite, forward. -/
theorem c5_loop_animator (r : Region)
    (h : contentExtent r > r.viewportExtent) :
    (startHorizontalScrolling r).items = r.items ++ r.items
    ∧ contentExtent (startHorizontalScrolling r) = 2 * contentExtent r
    ∧ (startHorizontalScrolling r).scrollWidthVar = some (-(contentExtent r))
    ∧ (startHorizontalScrolling r).animation = some
        { keyframesName := horizontalScrollName
          durationSec := |(-(contentExtent r))| / scrollRate
          timing := TimingFun.linear
          direction := AnimDirection.normal
          iteration := AnimIteration.loopForever }
    ∧ (startHorizontalScrolling r).viewportExtent = r.viewportExtent := by
  unfold startHorizontalScrolling
  rw [if_pos h]
  refine ⟨rfl, ?_, ?_, ?_, rfl⟩
  · show contentExtent (duplicated r) = 2 * contentExtent r
    exact contentExtent_duplicated r
  · show some (loopScrollDistance r) = some (-(contentExtent r))
    rw [loopScrollDistance_eq]
  · simp only [loopDuration, loopScrollDistance_eq]

/-- Witness for C5: the amended conclusions hold at the overflowing
demonstration region. -/
theorem c5_witness :
    (startHorizontalScrolling demoRegion).items
        = demoRegion.items ++ demoRegion.items
    ∧ contentExtent (startHorizontalScrolling demoRegion)
        = 2 * contentExtent demoRegion
    ∧ (startHorizontalScrolling demoRegion).scrollWidthVar
        = some (-(contentExtent demoRegion))
    ∧ (startHorizontalScrolling demoRegion).animation = some
        { keyframesName := horizontalScrollName
          durationSec := |(-(contentExtent demoRegion))| / scrollRate
          timing := TimingFun.linear
          direction := AnimDirection.normal
          iteration := AnimIteration.loopForever }
    ∧ (startHorizontalScrolling demoRegion).viewportExtent
        = demoRegion.viewportExtent :=
  c5_loop_animator demoRegion (by norm_num [contentExtent, demoRegion])

/-- C6: a region whose content does not exceed its viewport is left entirely
unchanged by either animator variant — no duplication, no animation applied —
and repeated invocations are idempotent. -/
theorem c6_static_idempotent (r : Region)
    (h : contentExtent r ≤ r.viewportExtent) :
    startHorizontalScrolling r = r
    ∧ startHorizontalScrolling (startHorizontalScrolling r)
        = startHorizontalScrolling r
    ∧ startHorizontalScrollingOnce r = r
    ∧ startHorizontalScrollingOnce (startHorizontalScrollingOnce r)
        = startHorizontalScrollingOnce r := by
  have h1 : startHorizontalScrolling r = r := by
    unfold startHorizontalScrolling
    rw [if_neg (not_lt.mpr h)]
  have h2 : startHorizontalScrollingOnce r = r := by
    unfold startHorizontalScrollingOnce
    rw [if_neg (not_lt.mpr h)]
  exact ⟨h1, by rw [h1, h1], h2, by rw [h2, h2]⟩

/-- Witness for C6 at the non-overflowing demonstration region. -/
theorem c6_witness :
    startHorizontalScrolling demoStaticRegion = demoStaticRegion
    ∧ startHorizontalScrolling (startHorizontalScrolling demoStaticRegion)
        = startHorizontalScrolling demoStaticRegion
    ∧ startHorizontalScrollingOnce demoStaticRegion = demoStaticRegion
    ∧ startHorizontalScrollingOnce
          (startHorizontalScrollingOnce demoStaticRegion)
        = startHorizontalScrollingOnce demoStaticRegion :=
  c6_static_idempotent demoStaticRegion
    (by norm_num [contentExtent, demoStaticRegion])

/-- C7: the single-shot policy of the unnamed variant sets the scroll
distance to `-(contentExtent - viewportExtent)` with no item duplication,
floors the animation duration at the fixed minimum watch-time, and — per the
design document, the stylesheet being outside the sources — plays once to
its end and holds rather than looping. -/
theorem c7_single_shot (r : Region)
    (h : contentExtent r > r.viewportExtent) :
    (startHorizontalScrollingOnce r).scrollWidthVar
        = some (-(contentExtent r - r.viewportExtent))
    ∧ (startHorizontalScrollingOnce r).items = r.items
    ∧ (startHorizontalScrollingOnce r).animationDurationSec
        = some (max minWatchTimeSec
            (|(-(contentExtent r - r.viewportExtent))| * onceSecPerPx))
    ∧ (∀ dur : ℚ, (startHorizontalScrollingOnce r).animationDurationSec
          = some dur → minWatchTimeSec ≤ dur)
    ∧ scrollingContentClass ∈ (startHorizontalScrollingOnce r).cssClasses
    ∧ scrollingContentPlayback = AnimIteration.once := by
  unfold startHorizontalScrollingOnce
  rw [if_pos h]
  refine ⟨rfl, rfl, rfl, ?_, ?_, rfl⟩
  · intro dur hdur
    have hd := Option.some.inj hdur
    rw [← hd]
    exact le_max_left _ _
  · show scrollingContentClass ∈ r.cssClasses ++ [scrollingContentClass]
    exact List.mem_append_right _ (List.mem_singleton.mpr rfl)

/-- Witness for C7 at the overflowing demonstration region. -/
theorem c7_witness :
    (startHorizontalScrollingOnce demoRegion).scrollWidthVar
        = some (-(contentExtent demoRegion - demoRegion.viewportExtent))
    ∧ (startHorizontalScrollingOnce demoRegion).items = demoRegion.items
    ∧ (startHorizontalScrollingOnce demoRegion).animationDurationSec
        = some (max minWatchTimeSec
            (|(-(contentExtent demoRegion - demoRegion.viewportExtent))|
              * onceSecPerPx))
    ∧ scrollingContentClass ∈ (startHorizontalScrollingOnce demoRegion).cssClasses
    ∧ scrollingContentPlayback = AnimIteration.once := by
  obtain ⟨h1, h2, h3, -, h5, h6⟩ :=
    c7_single_shot demoRegion (by norm_num [contentExtent, demoRegion])
  exact ⟨h1, h2, h3, h5, h6⟩

/-- C8: the rotator partitions the rows into `k = ceil(totalRows /
rowsPerPage)` contiguous pages, the last possibly short; every tick of the
installed timer advances `currentIndex` to `(currentIndex + 1) mod k` with
exactly one page visible afterwards; after exactly `k` ticks page 0 is
visible again; with `k ≤ 1` no timer is installed and page 0 stays visible
forever; and 23 rows at 10 per page give 3 pages of 10, 10 and 3 rows. -/
theorem c8_slide_rotator {α : Type} (rows : List α) (rowsPerPage : Nat)
    (hrpp : 0 < rowsPerPage) :
    ((chunkRows rowsPerPage rows).flatten = rows
      ∧ (chunkRows rowsPerPage rows).length = numPages rows.length rowsPerPage
      ∧ (∀ c ∈ chunkRows rowsPerPage rows, c ≠ [] ∧ c.length ≤ rowsPerPage))
    ∧ (∀ (k : Nat) (st : RotatorState), st.timerStarted = true →
        (tickRotator k st).currentIndex = (st.currentIndex + 1) % k)
    ∧ (∀ k : Nat, 1 < k → ∀ n : Nat,
        ((tickRotator k)^[n] (initRotator k)).currentIndex = n % k
        ∧ (visiblePages k ((tickRotator k)^[n] (initRotator k))).length = 1)
    ∧ (∀ k : Nat, 1 < k →
        (tickRotator k)^[k] (initRotator k) = initRotator k)
    ∧ (∀ k : Nat, k ≤ 1 → (initRotator k).timerStarted = false
        ∧ ∀ n : Nat, (tickRotator k)^[n] (initRotator k) = initRotator k)
    ∧ (numPages 23 10 = 3
        ∧ (chunkRows 10 (List.range 23)).map List.length = [10, 10, 3]
        ∧ (tickRotator 3)^[3] (initRotator 3) = initRotator 3) := by
  refine ⟨⟨chunkRows_flatten rowsPerPage hrpp rows,
      chunkRows_length rowsPerPage hrpp rows,
      fun c hc => chunkRows_mem rowsPerPage hrpp rows c hc⟩,
    ?_, ?_, ?_, ?_, by decide, by decide, by decide⟩
  · intro k st hst
    simp [tickRotator, hst]
  · intro k hk n
    rw [rotator_iterate k hk n]
    exact ⟨rfl, visiblePages_length k _ (Nat.mod_lt n (by omega))⟩
  · intro k hk
    rw [rotator_iterate k hk k]
    simp [initRotator, Nat.mod_self, hk]
  · intro k hk
    refine ⟨?_, fun n => rotator_static k hk n⟩
    simp [initRotator]
    omega

/-- Witness for C8 at 23 rows, 10 per page (k = 3), plus the degenerate
single-page rotator. -/
theorem c8_witness :
    (chunkRows 10 (List.range 23)).flatten = List.range 23
    ∧ (chunkRows 10 (List.range 23)).length = numPages 23 10
    ∧ (tickRotator 3 (initRotator 3)).currentIndex = (0 + 1) % 3
    ∧ ((tickRotator 3)^[3] (initRotator 3)).currentIndex = 3 % 3
    ∧ (visiblePages 3 ((tickRotator 3)^[3] (initRotator 3))).length = 1
    ∧ (tickRotator 3)^[3] (initRotator 3) = initRotator 3
    ∧ (initRotator 1).timerStarted = false
    ∧ (tickRotator 1)^[5] (initRotator 1) = initRotator 1 := by
  obtain ⟨⟨hf, hl, -⟩, ht, hit, hret, hstat, -⟩ :=
    c8_slide_rotator (List.range 23) 10 (by decide)
  exact ⟨hf, hl, ht 3 (initRotator 3) rfl, (hit 3 (by decide) 3).1,
    (hit 3 (by decide) 3).2, hret 3 (by decide), (hstat 1 (by decide)).1,
    (hstat 1 (by decide)).2 5⟩

/-- C9: a retrieval failure (non-ok response or transport failure) is caught
once at the top level: one diagnostic is logged, the render target's content
is replaced by the inline error notice, and only the single original fetch
was issued — no retry, no partial table; a missing render target logs one
error and aborts before fetching, leaving the target untouched with no
user-visible message. -/
theorem c9_error_handling (parse : String → Option LocalDate)
    (now : LocalDate) :
    (∀ status : Nat,
      loadAndDisplayData parse now true (FetchOutcome.httpError status)
      = { errorsLogged := 1
          containerContent := some RenderedContent.errorNotice
          fetchAttempts := 1 })
    ∧ loadAndDisplayData parse now true FetchOutcome.transportFailure
      = { errorsLogged := 1
          containerContent := some RenderedContent.errorNotice
          fetchAttempts := 1 }
    ∧ (∀ fetched : FetchOutcome,
        loadAndDisplayData parse now false fetched
        = { errorsLogged := 1
            containerContent := none
            fetchAttempts := 0 }) :=
  ⟨fun _ => rfl, rfl, fun _ => rfl⟩

/-- C10: presence of the date fields is tested by JS truthiness, so an
empty-string arrival falls back to the departure field, and a record whose
arrival and departure are each empty or absent is excluded from every
bucket. -/
theorem c10_truthiness_fallback (parse : String → Option LocalDate)
    (now : LocalDate) (l : List Shipment) (s : Shipment) :
    (s.arrival = some emptyString → effectiveDateStr s = s.departure)
    ∧ ((s.arrival = some emptyString ∨ s.arrival = none) →
        (s.departure = some emptyString ∨ s.departure = none) →
        ∀ i : Nat, s ∉ (processAndGroupShipments parse now l).getD i []) := by
  constructor
  · intro ha
    unfold effectiveDateStr
    rw [ha]
    rfl
  · intro ha hd i hmem
    have ho := ((mem_bucket_iff parse now l s i).1 hmem).2
    have hnone : shipmentOrdinal parse (setMidnight now) s = none := by
      unfold shipmentOrdinal effectiveDateStr
      rcases ha with ha | ha <;> rw [ha] <;> rcases hd with hd | hd <;>
        rw [hd] <;> rfl
    rw [hnone] at ho
    simp at ho

/-- Witness for C10: the record with empty arrival and departure strings
falls back to departure for its effective date and occupies no bucket
(checked at bucket 1). -/
theorem c10_witness :
    effectiveDateStr shipUnscheduled = shipUnscheduled.departure
    ∧ shipUnscheduled
        ∉ (processAndGroupShipments demoParse refNow demoShipments).getD 1 [] := by
  obtain ⟨h1, h2⟩ :=
    c10_truthiness_fallback demoParse refNow demoShipments shipUnscheduled
  exact ⟨h1 rfl, h2 (Or.inl rfl) (Or.inl rfl) 1⟩

end OptiSigns
